import Mathlib

/-!
Verification model of the drag-to-reorder engine of apple-home-dashboard:
src/utils/DragAndDropManager.ts, src/utils/DashboardStateManager.ts and the
AppleChips component. Pure computations of the source are translated directly;
the DOM and the external gesture-sensing library are represented by explicit
state, the latter following the interface the specification fixes for it
(it serializes gestures, reorders DOM nodes live during a drag, restores the
pre-drag order on cancellation, and fires the configured onStart and onEnd
callbacks at session start and session end).
-/

/-- One status chip, as in the ChipData interface of the AppleChips component;
group is the key used by ordering, the remaining fields are carried along. -/
structure ChipData where
  group : String
  icon : String
  groupName : String
  statusText : String
deriving DecidableEq, Repr

/-- Lookup in the Map built by applySavedChipsOrder: chips.forEach sets
chipMap[chip.group] := chip, so the last chip of a given group wins. -/
def chipMapGet (chips : List ChipData) (g : String) : Option ChipData :=
  chips.foldl (fun acc c => if c.group = g then some c else acc) none

/-- AppleChips.applySavedChipsOrder. The customization manager is modelled as
the saved order it returns, none when this.customizationManager is absent.
The source pushes a chip for every occurrence of its group in the saved order
and afterwards appends the chips whose group was not used. -/
def applySavedChipsOrder (savedChipsOrder : Option (List String))
    (chips : List ChipData) : List ChipData :=
  match savedChipsOrder with
  | none => chips
  | some savedOrder =>
    if savedOrder.length = 0 then chips
    else
      let orderedChips := savedOrder.filterMap (fun g => chipMapGet chips g)
      let usedGroups := savedOrder.filter (fun g => (chipMapGet chips g).isSome)
      orderedChips ++ chips.filter (fun c => !(usedGroups.contains c.group))

/-- Notification loop shared by DashboardStateManager.notifyListeners and
RegistrySubscriptionManager.notifyListeners: each registered callback is
invoked with the event inside its own try/catch, so a throwing callback yields
an error value in the trace instead of aborting the loop. The trace records,
per listener, the argument it received and its outcome. -/
def notifyListeners {α : Type} (ls : List (α → Except String Unit)) (ev : α) :
    List (α × Except String Unit) :=
  ls.map (fun cb => (ev, cb ev))

/-- Errors caught by the notification loop and passed to console.error. -/
def notifyLog {α : Type} (ls : List (α → Except String Unit)) (ev : α) :
    List String :=
  (notifyListeners ls ev).filterMap (fun p =>
    match p.2 with
    | Except.error e => some e
    | Except.ok _ => none)

/-- Process state relevant to style injection: the static flag
DragAndDropManager.globalStylesInjected and the number of style elements with
id sortable-drag-styles appended to document.head. -/
structure StyleState where
  globalStylesInjected : Bool
  styleElemCount : Nat
deriving DecidableEq, Repr

def initialStyleState : StyleState :=
  { globalStylesInjected := false, styleElemCount := 0 }

/-- DragAndDropManager.injectGlobalStyles: returns at once when the static
flag is set, otherwise appends one style element and sets the flag. -/
def injectGlobalStyles (s : StyleState) : StyleState :=
  if s.globalStylesInjected then s
  else { globalStylesInjected := true, styleElemCount := s.styleElemCount + 1 }

/-- DragAndDropManager constructor: stores the callbacks and calls
injectGlobalStyles; nothing else touches the style state. -/
def constructManager (s : StyleState) : StyleState :=
  injectGlobalStyles s

/-- n successive constructions of DragAndDropManager instances. -/
def constructManagers : Nat → StyleState → StyleState
  | 0, s => s
  | n + 1, s => constructManagers n (constructManager s)

/-- Snapshot of the manager plus document state touched by one drag session.
controls lists the .entity-controls elements of the attached container, an
entry is true when its inline visibility is hidden; cloneCount counts the
.drag-visual-clone nodes in the document; dragVisual is the this.dragVisual
reference. -/
structure DragState where
  isReordering : Bool
  dragVisual : Bool
  cloneCount : Nat
  moveListeners : Bool
  controls : List Bool
  userSelectNone : Bool
deriving DecidableEq, Repr

def initialDragState : DragState :=
  { isReordering := false, dragVisual := false, cloneCount := 0,
    moveListeners := false, controls := [], userSelectNone := false }

/-- DragAndDropManager.removeDragVisual: removes the clone node from its
parent when the reference is set, then clears the reference. -/
def removeDragVisual (s : DragState) : DragState :=
  { s with
    cloneCount := if s.dragVisual then s.cloneCount - 1 else s.cloneCount,
    dragVisual := false }

/-- DragAndDropManager.createDragVisual: first calls removeDragVisual, then
builds one new .drag-visual-clone node and appends it to document.body. -/
def createDragVisual (s : DragState) : DragState :=
  let s1 := removeDragVisual s
  { s1 with dragVisual := true, cloneCount := s1.cloneCount + 1 }

/-- Coupling between the dragVisual reference and the number of clone nodes
present in the document. -/
def DVInv (s : DragState) : Prop :=
  s.cloneCount = if s.dragVisual then 1 else 0

/-- The two operations of the visual clone builder. -/
inductive DVOp where
  | create
  | destroy
deriving DecidableEq, Repr

def applyDVOp (s : DragState) : DVOp → DragState
  | DVOp.create => createDragVisual s
  | DVOp.destroy => removeDragVisual s

/-- Runs a sequence of create and destroy operations. -/
def runDV : DragState → List DVOp → DragState
  | s, [] => s
  | s, op :: ops => runDV (applyDVOp s op) ops

/-- Persistence invocations the drag engine can emit, one constructor per
host callback. -/
inductive Invocation where
  | saveOrder (areaId : String)
  | saveChipsOrder (order : List String)
  | updateCarouselOrder (areaId sectionType : String) (order : List String)
      (context : String)
deriving DecidableEq, Repr

/-- One .entity-card-wrapper in a carousel: dataset.entityId plus the fallback
read from the contained apple-home-card element (entity, entityId, or the
entity attribute, collapsed to one optional value). -/
structure CardWrapper where
  entityId : Option String
  cardEntity : Option String
deriving DecidableEq, Repr

/-- One .chip-wrapper: dataset.chipId with dataset.entityId as fallback. -/
structure ChipWrapper where
  chipId : Option String
  entityId : Option String
deriving DecidableEq, Repr

/-- Order read in updateCarouselConfiguration: per wrapper dataset.entityId,
else the fallback from the card; wrappers without any id are skipped. -/
def readCarouselOrder (ws : List CardWrapper) : List String :=
  ws.filterMap (fun w =>
    match w.entityId with
    | some e => some e
    | none => w.cardEntity)

/-- Order read in updateChipsOrder: dataset.chipId or dataset.entityId,
wrappers with neither are skipped. -/
def readChipsOrder (ws : List ChipWrapper) : List String :=
  ws.filterMap (fun w =>
    match w.chipId with
    | some c => some c
    | none => w.entityId)

/-- DragAndDropManager.updateChipsOrder: reads the chip order from the grid
and, when a customization manager is present, saves it. -/
def updateChipsOrder (hasCM : Bool) (ws : List ChipWrapper) : List Invocation :=
  let newOrder := readChipsOrder ws
  if hasCM then [Invocation.saveChipsOrder newOrder] else []

/-- DragAndDropManager.updateCarouselConfiguration: returns early unless both
dataset.areaId and dataset.sectionType are present; then reads the order and,
when a customization manager is present, persists it with the render
context. -/
def updateCarouselConfiguration (hasCM : Bool) (context : String)
    (areaId sectionType : Option String) (ws : List CardWrapper) :
    List Invocation :=
  match areaId, sectionType with
  | some a, some st =>
    let newOrder := readCarouselOrder ws
    if hasCM then [Invocation.updateCarouselOrder a st newOrder context]
    else []
  | _, _ => []

/-- setupGridSortable onStart: sets the static reordering flag, hides every
.entity-controls in the grid, creates the drag visual and attaches the
document pointer-move listeners; user selection is disabled. -/
def gridOnStart (s : DragState) : DragState :=
  let s1 := { s with isReordering := true,
                     controls := s.controls.map (fun _ => true) }
  let s2 := createDragVisual s1
  { s2 with moveListeners := true, userSelectNone := true }

/-- setupGridSortable onEnd: clears the flag, restores every .entity-controls,
removes the visual and the listeners, and calls saveOrderCallback areaId when
the grid carries a data-area-id. -/
def gridOnEnd (areaId : Option String) (s : DragState) :
    DragState × List Invocation :=
  let s1 := { s with isReordering := false,
                     controls := s.controls.map (fun _ => false) }
  let s2 := removeDragVisual s1
  let s3 := { s2 with moveListeners := false, userSelectNone := false }
  (s3, match areaId with
    | some a => [Invocation.saveOrder a]
    | none => [])

/-- setupCarouselSortable onStart: the same steps as for the grid. -/
def carouselOnStart (s : DragState) : DragState :=
  let s1 := { s with isReordering := true,
                     controls := s.controls.map (fun _ => true) }
  let s2 := createDragVisual s1
  { s2 with moveListeners := true, userSelectNone := true }

/-- setupCarouselSortable onEnd: stops scrolling, restores the controls,
removes the visual and the listeners and runs updateCarouselConfiguration on
the carousel the item sits in; the source never resets
DragAndDropManager.isReordering in this handler. -/
def carouselOnEnd (hasCM : Bool) (context : String)
    (areaId sectionType : Option String) (ws : List CardWrapper)
    (s : DragState) : DragState × List Invocation :=
  let s1 := { s with controls := s.controls.map (fun _ => false) }
  let s2 := removeDragVisual s1
  let s3 := { s2 with moveListeners := false, userSelectNone := false }
  (s3, updateCarouselConfiguration hasCM context areaId sectionType ws)

/-- enableChipsCarousel onStart: sets the flag, creates the chip drag visual
and attaches the listeners; the handler does not touch control elements. -/
def chipsOnStart (s : DragState) : DragState :=
  let s1 := { s with isReordering := true }
  let s2 := createDragVisual s1
  { s2 with moveListeners := true, userSelectNone := true }

/-- enableChipsCarousel onEnd: clears the flag, stops scrolling, removes the
visual and the listeners and, when the dragged item sits inside an element
matching .carousel-grid.chips, runs updateChipsOrder on it. -/
def chipsOnEnd (hasCM : Bool) (inCarouselGridChips : Bool)
    (ws : List ChipWrapper) (s : DragState) : DragState × List Invocation :=
  let s1 := { s with isReordering := false }
  let s2 := removeDragVisual s1
  let s3 := { s2 with moveListeners := false, userSelectNone := false }
  (s3, if inCarouselGridChips then updateChipsOrder hasCM ws else [])

/-- A grid container: its data-area-id and the pre-drag DOM order of item
identifiers. -/
structure GridContainer where
  areaId : Option String
  items : List String
deriving DecidableEq, Repr

/-- A carousel container: data-area-id, data-section-type, and the pre-drag
card wrappers in DOM order. -/
structure CarouselContainer where
  areaId : Option String
  sectionType : Option String
  wrappers : List CardWrapper
deriving DecidableEq, Repr

/-- A chip row: whether the dragged chip sits inside an element matching
.carousel-grid.chips, and the pre-drag chip wrappers in DOM order. -/
structure ChipsContainer where
  inCarouselGridChips : Bool
  wrappers : List ChipWrapper
deriving DecidableEq, Repr

/-- One grid drag session. The sensing library (external, following the
interface the specification fixes) reorders the DOM live and, on a cancelled
drag, restores the pre-drag DOM order before firing onEnd; dropOrder is the
DOM order at release. Returns the final state, the DOM order after the
session, and the emitted persistence invocations. -/
def runGridSession (g : GridContainer) (dropOrder : List String)
    (cancelled : Bool) (s : DragState) :
    DragState × List String × List Invocation :=
  let s1 := gridOnStart s
  let dom := if cancelled then g.items else dropOrder
  let r := gridOnEnd g.areaId s1
  (r.1, dom, r.2)

/-- One carousel drag session, like runGridSession; onEnd reads the DOM as it
stands when the session ends. -/
def runCarouselSession (hasCM : Bool) (context : String)
    (c : CarouselContainer) (dropWrappers : List CardWrapper)
    (cancelled : Bool) (s : DragState) :
    DragState × List CardWrapper × List Invocation :=
  let s1 := carouselOnStart s
  let dom := if cancelled then c.wrappers else dropWrappers
  let r := carouselOnEnd hasCM context c.areaId c.sectionType dom s1
  (r.1, dom, r.2)

/-- One chip-row drag session, like runGridSession. -/
def runChipsSession (hasCM : Bool) (c : ChipsContainer)
    (dropWrappers : List ChipWrapper) (cancelled : Bool) (s : DragState) :
    DragState × List ChipWrapper × List Invocation :=
  let s1 := chipsOnStart s
  let dom := if cancelled then c.wrappers else dropWrappers
  let r := chipsOnEnd hasCM c.inCarouselGridChips dom s1
  (r.1, dom, r.2)

/-- Control elements of a chips container: AppleChips.generateHTML renders
each chip wrapper with chip, chip-icon and chip-content nodes only, never an
.entity-controls element, so the chip row holds zero control sub-elements. -/
def chipsContainerControls : List Bool := []

/-- Shared body of the two updateScrollSpeed closures; zone width and the
speed bounds are the per-kind constants. canScrollLeft is currentScroll
greater than 0, canScrollRight is currentScroll less than maxScroll, the
distances are measured from the bounding rectangle of the scroll container. -/
def updateScrollSpeedCore
    (zone maxSpeed minSpeed rectLeft rectRight scrollLeft maxScroll x : ℚ) :
    ℚ :=
  let distFromLeft := x - rectLeft
  let distFromRight := rectRight - x
  if distFromLeft < zone ∧ 0 ≤ distFromLeft ∧ 0 < scrollLeft then
    -(minSpeed + (1 - distFromLeft / zone) * (maxSpeed - minSpeed))
  else if distFromRight < zone ∧ 0 ≤ distFromRight ∧ scrollLeft < maxScroll
  then minSpeed + (1 - distFromRight / zone) * (maxSpeed - minSpeed)
  else 0

/-- setupCarouselSortable updateScrollSpeed: scrollZone 100, maxSpeed 15,
minSpeed 3; this is the newSpeed value it computes. -/
def carouselNewSpeed (rectLeft rectRight scrollLeft maxScroll x : ℚ) : ℚ :=
  updateScrollSpeedCore 100 15 3 rectLeft rectRight scrollLeft maxScroll x

/-- enableChipsCarousel updateScrollSpeed: scrollZone 80, maxSpeed 12,
minSpeed 2; the chip variant stores the computed speed directly. -/
def chipsNewSpeed (rectLeft rectRight scrollLeft maxScroll x : ℚ) : ℚ :=
  updateScrollSpeedCore 80 12 2 rectLeft rectRight scrollLeft maxScroll x

/-- Jitter gate of the carousel variant: currentScrollSpeed is overwritten
only when the newly computed speed differs from it by more than 0.5 or drops
to zero. -/
def carouselMaintainedSpeed (cur rectLeft rectRight scrollLeft maxScroll x : ℚ) :
    ℚ :=
  let ns := carouselNewSpeed rectLeft rectRight scrollLeft maxScroll x
  if 1/2 < |ns - cur| ∨ (ns = 0 ∧ ¬cur = 0) then ns else cur

/-- Sample chip used as concrete input. -/
def chipLights : ChipData :=
  { group := "lights", icon := "i1", groupName := "n1", statusText := "s1" }

/-- Second sample chip used as concrete input. -/
def chipClimate : ChipData :=
  { group := "climate", icon := "i2", groupName := "n2", statusText := "s2" }

/-! Helper lemmas. -/

/-- Once the static flag is set, further constructions change nothing. -/
theorem constructManagers_stable (n k : Nat) :
    constructManagers n { globalStylesInjected := true, styleElemCount := k } =
      { globalStylesInjected := true, styleElemCount := k } := by
  induction n with
  | zero => rfl
  | succ m ih =>
    simpa [constructManagers, constructManager, injectGlobalStyles] using ih

/-- After at least one construction the process holds exactly one style
element. -/
theorem constructManagers_succ_eq (m : Nat) :
    constructManagers (m + 1) initialStyleState =
      { globalStylesInjected := true, styleElemCount := 1 } := by
  show constructManagers m (constructManager initialStyleState) = _
  have h : constructManager initialStyleState =
      { globalStylesInjected := true, styleElemCount := 1 } := rfl
  rw [h]
  exact constructManagers_stable m 1

/-- Both clone-builder operations preserve the coupling invariant. -/
theorem DVInv.applyOp {s : DragState} (h : DVInv s) (op : DVOp) :
    DVInv (applyDVOp s op) := by
  cases op <;>
    by_cases hv : s.dragVisual <;>
      simp [DVInv, hv] at h <;>
        simp [DVInv, applyDVOp, createDragVisual, removeDragVisual, hv, h]

/-- Any operation sequence preserves the coupling invariant. -/
theorem DVInv.runDV {s : DragState} (h : DVInv s) (ops : List DVOp) :
    DVInv (runDV s ops) := by
  induction ops generalizing s with
  | nil => exact h
  | cons op ops ih => exact ih (h.applyOp op)

theorem runDV_append (s : DragState) (l1 l2 : List DVOp) :
    runDV s (l1 ++ l2) = runDV (runDV s l1) l2 := by
  induction l1 generalizing s with
  | nil => rfl
  | cons op ops ih => simp [runDV, ih]

/-- Destroying right after creating leaves no clone node, given the
invariant. -/
theorem remove_create_cloneCount {s : DragState} (h : DVInv s) :
    (removeDragVisual (createDragVisual s)).cloneCount = 0 := by
  by_cases hv : s.dragVisual <;>
    simp [DVInv, hv] at h <;>
      simp [createDragVisual, removeDragVisual, hv, h]

/-! Claim theorems. -/

/-- C7: the global drag styles are injected at most once per process: no
matter how many DragAndDropManager instances are constructed, exactly one
style element exists once any instance was built, guarded by the static
globalStylesInjected flag. -/
theorem c7_global_styles_injected_once (n : Nat) :
    (constructManagers n initialStyleState).styleElemCount ≤ 1 ∧
      (constructManagers (n + 1) initialStyleState).styleElemCount = 1 := by
  constructor
  · cases n with
    | zero => simp [constructManagers, initialStyleState]
    | succ m => rw [constructManagers_succ_eq]
  · rw [constructManagers_succ_eq]

/-- C3: every onStart handler sets the static isReordering flag, the grid and
chip-row onEnd handlers reset it, but the carousel onEnd handler never does:
after any carousel session the flag is still true, contradicting the claim
that the flag is false whenever no session is active. -/
theorem c3_carousel_leaves_isReordering_true :
    (∀ s, (gridOnStart s).isReordering = true ∧
        (carouselOnStart s).isReordering = true ∧
        (chipsOnStart s).isReordering = true) ∧
    (∀ g dropOrder cancelled s,
        (runGridSession g dropOrder cancelled s).1.isReordering = false) ∧
    (∀ hasCM c dropWrappers cancelled s,
        (runChipsSession hasCM c dropWrappers cancelled s).1.isReordering =
          false) ∧
    (∀ hasCM context c dropWrappers cancelled s,
        (runCarouselSession hasCM context c dropWrappers cancelled
            s).1.isReordering = true) := by
  refine ⟨fun s => ⟨rfl, rfl, rfl⟩, fun g d c s => rfl, fun h c d x s => rfl,
    fun h ctx c d x s => rfl⟩

/-- C4: the clone node count is always 0 or 1; create followed by destroy
leaves zero clone nodes, destroy removes the node and clears the reference,
and no session of any kind leaves an orphaned clone behind. -/
theorem c4_at_most_one_clone :
    (∀ ops : List DVOp, (runDV initialDragState ops).cloneCount ≤ 1) ∧
    (∀ ops : List DVOp,
        (runDV initialDragState
            (ops ++ [DVOp.create, DVOp.destroy])).cloneCount = 0) ∧
    (∀ s : DragState, DVInv s →
        (createDragVisual s).cloneCount = 1 ∧
        (removeDragVisual s).cloneCount = 0 ∧
        (removeDragVisual s).dragVisual = false ∧
        (removeDragVisual (createDragVisual s)).cloneCount = 0) ∧
    (∀ g dropOrder cancelled s, DVInv s →
        (runGridSession g dropOrder cancelled s).1.cloneCount = 0 ∧
        (runGridSession g dropOrder cancelled s).1.dragVisual = false) ∧
    (∀ hasCM context c dropWrappers cancelled s, DVInv s →
        (runCarouselSession hasCM context c dropWrappers cancelled
            s).1.cloneCount = 0 ∧
        (runCarouselSession hasCM context c dropWrappers cancelled
            s).1.dragVisual = false) ∧
    (∀ hasCM c dropWrappers cancelled s, DVInv s →
        (runChipsSession hasCM c dropWrappers cancelled s).1.cloneCount = 0 ∧
        (runChipsSession hasCM c dropWrappers cancelled s).1.dragVisual =
          false) := by
  have hinv0 : DVInv initialDragState := by simp [DVInv, initialDragState]
  refine ⟨?_, ?_, ?_, ?_, ?_, ?_⟩
  · intro ops
    have h := hinv0.runDV ops
    rw [DVInv] at h
    rw [h]
    by_cases hv : (runDV initialDragState ops).dragVisual <;> simp [hv]
  · intro ops
    rw [runDV_append]
    have h := hinv0.runDV ops
    show (removeDragVisual (createDragVisual (runDV initialDragState
      ops))).cloneCount = 0
    exact remove_create_cloneCount h
  · intro s h
    by_cases hv : s.dragVisual <;>
      simp [DVInv, hv] at h <;>
        simp [createDragVisual, removeDragVisual, hv, h]
  · intro g d c s h
    by_cases hv : s.dragVisual <;>
      simp [DVInv, hv] at h <;>
        simp [runGridSession, gridOnStart, gridOnEnd, createDragVisual,
          removeDragVisual, hv, h]
  · intro hm ctx c d x s h
    by_cases hv : s.dragVisual <;>
      simp [DVInv, hv] at h <;>
        simp [runCarouselSession, carouselOnStart, carouselOnEnd,
          createDragVisual, removeDragVisual, hv, h]
  · intro hm c d x s h
    by_cases hv : s.dragVisual <;>
      simp [DVInv, hv] at h <;>
        simp [runChipsSession, chipsOnStart, chipsOnEnd, createDragVisual,
          removeDragVisual, hv, h]

/-- Witness for c4_at_most_one_clone: the invariant holds in the initial
state and the session and create-destroy clauses evaluate there. -/
theorem c4_at_most_one_clone_witness :
    DVInv initialDragState ∧
      (removeDragVisual (createDragVisual initialDragState)).cloneCount = 0 ∧
      (runGridSession { areaId := some "kitchen", items := ["a", "b"] }
          ["b", "a"] false initialDragState).1.cloneCount = 0 := by
  have hinv : DVInv initialDragState := by simp [DVInv, initialDragState]
  exact ⟨hinv, (c4_at_most_one_clone.2.2.1 initialDragState hinv).2.2.2,
    (c4_at_most_one_clone.2.2.2.1 _ _ false initialDragState hinv).1⟩

/-- C1 counterexample: a completed, non-cancelled drag in a grid that carries
no data-area-id emits no persistence invocation at all, not exactly one. -/
theorem c1_counterexample_grid_without_area :
    (runGridSession { areaId := none, items := ["a", "b"] } ["b", "a"] false
        initialDragState).2.2 = [] := by
  rfl

/-- C1 amended: provided the container carries the identifiers its callback
needs (grid: an area id; carousel: area id and section type plus a
customization manager; chip row: a customization manager and the dragged chip
inside an element matching .carousel-grid.chips), the onEnd handler invokes
the persistence callback exactly once, with the identifier sequence read from
the container DOM at drop time; for chip rows each wrapper contributes its
chip id falling back to its entity id, and for grids the callback receives
the area id while the DOM holds exactly the drop-time order for the host to
re-read. -/
theorem c1_amended_commit_exactly_once :
    (∀ g dropOrder s a, g.areaId = some a →
        (runGridSession g dropOrder false s).2.2 =
          [Invocation.saveOrder a] ∧
        (runGridSession g dropOrder false s).2.1 = dropOrder) ∧
    (∀ context c dropWrappers s a st,
        c.areaId = some a → c.sectionType = some st →
        (runCarouselSession true context c dropWrappers false s).2.2 =
          [Invocation.updateCarouselOrder a st
            (readCarouselOrder dropWrappers) context] ∧
        (runCarouselSession true context c dropWrappers false s).2.1 =
          dropWrappers) ∧
    (∀ c dropWrappers s, c.inCarouselGridChips = true →
        (runChipsSession true c dropWrappers false s).2.2 =
          [Invocation.saveChipsOrder (readChipsOrder dropWrappers)] ∧
        (runChipsSession true c dropWrappers false s).2.1 = dropWrappers) := by
  refine ⟨?_, ?_, ?_⟩
  · intro g d s a ha
    exact ⟨by simp [runGridSession, gridOnEnd, ha], rfl⟩
  · intro ctx c d s a st ha hst
    exact ⟨by simp [runCarouselSession, carouselOnEnd,
      updateCarouselConfiguration, ha, hst], rfl⟩
  · intro c d s hc
    exact ⟨by simp [runChipsSession, chipsOnEnd, updateChipsOrder, hc], rfl⟩

/-- Witness for c1_amended_commit_exactly_once at concrete containers. -/
theorem c1_amended_commit_exactly_once_witness :
    (runGridSession { areaId := some "kitchen", items := ["a", "b"] }
        ["b", "a"] false initialDragState).2.2 =
      [Invocation.saveOrder "kitchen"] ∧
    (runCarouselSession true "home"
        { areaId := some "kitchen", sectionType := some "cameras",
          wrappers := [] }
        [{ entityId := some "camera.one", cardEntity := none },
          { entityId := none, cardEntity := some "camera.two" }] false
        initialDragState).2.2 =
      [Invocation.updateCarouselOrder "kitchen" "cameras"
        ["camera.one", "camera.two"] "home"] ∧
    (runChipsSession true { inCarouselGridChips := true, wrappers := [] }
        [{ chipId := some "lights", entityId := none },
          { chipId := none, entityId := some "security" }] false
        initialDragState).2.2 =
      [Invocation.saveChipsOrder ["lights", "security"]] := by
  have h := c1_amended_commit_exactly_once
  refine ⟨(h.1 _ _ initialDragState "kitchen" rfl).1, ?_, ?_⟩
  · have hc := (h.2.1 "home"
      { areaId := some "kitchen", sectionType := some "cameras",
        wrappers := [] }
      [{ entityId := some "camera.one", cardEntity := none },
        { entityId := none, cardEntity := some "camera.two" }]
      initialDragState "kitchen" "cameras" rfl rfl).1
    simpa [readCarouselOrder] using hc
  · have hc := (h.2.2 { inCarouselGridChips := true, wrappers := [] }
      [{ chipId := some "lights", entityId := none },
        { chipId := none, entityId := some "security" }]
      initialDragState rfl).1
    simpa [readChipsOrder] using hc

/-- C2 counterexample: a cancelled grid drag still invokes the persistence
callback once, because the sensing library fires onEnd on cancellation as
well and the handler calls the callback whenever the grid carries an area
id. -/
theorem c2_counterexample_cancelled_grid_invokes :
    (runGridSession { areaId := some "kitchen", items := ["a", "b"] }
        ["b", "a"] true initialDragState).2.2 =
      [Invocation.saveOrder "kitchen"] := by
  rfl

/-- C2 amended: for every cancelled drag the container DOM order is restored
to the pre-drag order before onEnd runs, so the DOM order is unchanged; the
onEnd handler does not distinguish cancel from drop, so its persistence path
still runs, and every invocation it emits observes or carries exactly the
unchanged pre-drag order. -/
theorem c2_amended_cancel_restores_order :
    (∀ g dropOrder s,
        (runGridSession g dropOrder true s).2.1 = g.items) ∧
    (∀ g dropOrder s a, g.areaId = some a →
        (runGridSession g dropOrder true s).2.2 =
          [Invocation.saveOrder a]) ∧
    (∀ hasCM context c dropWrappers s,
        (runCarouselSession hasCM context c dropWrappers true s).2.1 =
          c.wrappers ∧
        (runCarouselSession hasCM context c dropWrappers true s).2.2 =
          updateCarouselConfiguration hasCM context c.areaId c.sectionType
            c.wrappers) ∧
    (∀ hasCM c dropWrappers s,
        (runChipsSession hasCM c dropWrappers true s).2.1 = c.wrappers ∧
        (runChipsSession hasCM c dropWrappers true s).2.2 =
          (if c.inCarouselGridChips then updateChipsOrder hasCM c.wrappers
            else [])) := by
  refine ⟨fun g d s => rfl, ?_, fun hm ctx c d s => ⟨rfl, rfl⟩,
    fun hm c d s => ⟨rfl, rfl⟩⟩
  intro g d s a ha
  simp [runGridSession, gridOnEnd, ha]

/-- Witness for c2_amended_cancel_restores_order at a concrete cancelled
session. -/
theorem c2_amended_cancel_restores_order_witness :
    (runGridSession { areaId := some "kitchen", items := ["a", "b"] }
        ["b", "a"] true initialDragState).2.1 = ["a", "b"] ∧
    (runGridSession { areaId := some "kitchen", items := ["a", "b"] }
        ["b", "a"] true initialDragState).2.2 =
      [Invocation.saveOrder "kitchen"] ∧
    (runChipsSession true
        { inCarouselGridChips := true,
          wrappers := [{ chipId := some "lights", entityId := none }] }
        [] true initialDragState).2.2 =
      [Invocation.saveChipsOrder ["lights"]] := by
  have h := c2_amended_cancel_restores_order
  refine ⟨h.1 _ _ initialDragState, h.2.1 _ _ initialDragState "kitchen" rfl,
    ?_⟩
  have hc := (h.2.2.2 true
    { inCarouselGridChips := true,
      wrappers := [{ chipId := some "lights", entityId := none }] }
    [] initialDragState).2
  simpa [updateChipsOrder, readChipsOrder] using hc

/-- C9: when a grid carries no area id, or when a carousel lacks the area id
or the section-type attribute, the onEnd teardown still happens in full
(clone removed, reference cleared, pointer-move listeners detached, user
selection restored, every control visible again) while the persistence
callback is never invoked. -/
theorem c9_missing_ids_full_teardown_no_persist :
    (∀ g dropOrder cancelled s, DVInv s → g.areaId = none →
        (runGridSession g dropOrder cancelled s).2.2 = [] ∧
        (runGridSession g dropOrder cancelled s).1.cloneCount = 0 ∧
        (runGridSession g dropOrder cancelled s).1.dragVisual = false ∧
        (runGridSession g dropOrder cancelled s).1.moveListeners = false ∧
        (runGridSession g dropOrder cancelled s).1.userSelectNone = false ∧
        ((runGridSession g dropOrder cancelled s).1.controls.all
          (fun b => !b)) = true) ∧
    (∀ hasCM context c dropWrappers cancelled s, DVInv s →
        (c.areaId = none ∨ c.sectionType = none) →
        (runCarouselSession hasCM context c dropWrappers cancelled s).2.2 =
          [] ∧
        (runCarouselSession hasCM context c dropWrappers cancelled
          s).1.cloneCount = 0 ∧
        (runCarouselSession hasCM context c dropWrappers cancelled
          s).1.dragVisual = false ∧
        (runCarouselSession hasCM context c dropWrappers cancelled
          s).1.moveListeners = false ∧
        (runCarouselSession hasCM context c dropWrappers cancelled
          s).1.userSelectNone = false ∧
        ((runCarouselSession hasCM context c dropWrappers cancelled
          s).1.controls.all (fun b => !b)) = true) := by
  constructor
  · intro g d cxl s hinv ha
    refine ⟨by simp [runGridSession, gridOnEnd, ha], ?_, ?_, rfl, rfl, ?_⟩
    · by_cases hv : s.dragVisual <;>
        simp [DVInv, hv] at hinv <;>
          simp [runGridSession, gridOnStart, gridOnEnd, createDragVisual,
            removeDragVisual, hv, hinv]
    · rfl
    · simp [runGridSession, gridOnStart, gridOnEnd, createDragVisual,
        removeDragVisual, List.all_eq_true]
  · intro hm ctx c d cxl s hinv hids
    have hinvoc : ∀ ws, updateCarouselConfiguration hm ctx c.areaId
        c.sectionType ws = [] := by
      intro ws
      rcases hids with h | h
      · rw [h]; rfl
      · rw [h]; cases c.areaId <;> rfl
    refine ⟨?_, ?_, rfl, rfl, rfl, ?_⟩
    · show updateCarouselConfiguration hm ctx c.areaId c.sectionType
        (if cxl then c.wrappers else d) = []
      exact hinvoc _
    · by_cases hv : s.dragVisual <;>
        simp [DVInv, hv] at hinv <;>
          simp [runCarouselSession, carouselOnStart, carouselOnEnd,
            createDragVisual, removeDragVisual, hv, hinv]
    · simp [runCarouselSession, carouselOnStart, carouselOnEnd,
        createDragVisual, removeDragVisual, List.all_eq_true]

/-- Witness for c9_missing_ids_full_teardown_no_persist: a grid without an
area id and a carousel without a section type. -/
theorem c9_missing_ids_full_teardown_no_persist_witness :
    DVInv initialDragState ∧
    (runGridSession { areaId := none, items := ["a"] } ["a"] false
        initialDragState).2.2 = [] ∧
    (runGridSession { areaId := none, items := ["a"] } ["a"] false
        initialDragState).1.cloneCount = 0 ∧
    (runCarouselSession true "home"
        { areaId := some "kitchen", sectionType := none, wrappers := [] }
        [{ entityId := some "camera.one", cardEntity := none }] false
        initialDragState).2.2 = [] := by
  have hinv : DVInv initialDragState := by simp [DVInv, initialDragState]
  have h1 := c9_missing_ids_full_teardown_no_persist.1
    { areaId := none, items := ["a"] } ["a"] false initialDragState hinv rfl
  have h2 := c9_missing_ids_full_teardown_no_persist.2 true "home"
    { areaId := some "kitchen", sectionType := none, wrappers := [] }
    [{ entityId := some "camera.one", cardEntity := none }] false
    initialDragState hinv (Or.inr rfl)
  exact ⟨hinv, h1.1, h1.2.1, h2.1⟩

/-- C6: at the moment a drag starts the grid and carousel handlers hide every
.entity-controls element in the whole container, and at session end (drop or
cancel) every one is visible again; a chip row renders no .entity-controls
elements at all, so the property holds vacuously there. -/
theorem c6_controls_hidden_for_session :
    (∀ s, ((gridOnStart s).controls.all (fun b => b)) = true) ∧
    (∀ s, ((carouselOnStart s).controls.all (fun b => b)) = true) ∧
    (∀ g dropOrder cancelled s,
        ((runGridSession g dropOrder cancelled s).1.controls.all
          (fun b => !b)) = true) ∧
    (∀ hasCM context c dropWrappers cancelled s,
        ((runCarouselSession hasCM context c dropWrappers cancelled
          s).1.controls.all (fun b => !b)) = true) ∧
    (∀ s, s.controls = chipsContainerControls →
        ((chipsOnStart s).controls.all (fun b => b)) = true ∧
        ∀ hasCM c dropWrappers cancelled,
          ((runChipsSession hasCM c dropWrappers cancelled s).1.controls.all
            (fun b => !b)) = true) := by
  refine ⟨?_, ?_, ?_, ?_, ?_⟩
  · intro s
    simp [gridOnStart, createDragVisual, removeDragVisual, List.all_eq_true]
  · intro s
    simp [carouselOnStart, createDragVisual, removeDragVisual,
      List.all_eq_true]
  · intro g d cxl s
    simp [runGridSession, gridOnStart, gridOnEnd, createDragVisual,
      removeDragVisual, List.all_eq_true]
  · intro hm ctx c d cxl s
    simp [runCarouselSession, carouselOnStart, carouselOnEnd,
      createDragVisual, removeDragVisual, List.all_eq_true]
  · intro s hs
    constructor
    · simp [chipsOnStart, createDragVisual, removeDragVisual, hs,
        chipsContainerControls]
    · intro hm c d cxl
      simp [runChipsSession, chipsOnStart, chipsOnEnd, createDragVisual,
        removeDragVisual, hs, chipsContainerControls]

/-- Witness for c6_controls_hidden_for_session: a grid with two control
elements and the control-free chip row. -/
theorem c6_controls_hidden_for_session_witness :
    ((gridOnStart { initialDragState with
        controls := [false, true] }).controls.all (fun b => b)) = true ∧
    ((runGridSession { areaId := some "kitchen", items := ["a"] } ["a"] true
        { initialDragState with controls := [false, true] }).1.controls.all
      (fun b => !b)) = true ∧
    ((chipsOnStart initialDragState).controls.all (fun b => b)) = true := by
  have h := c6_controls_hidden_for_session
  exact ⟨h.1 _, h.2.2.1 _ _ true _,
    (h.2.2.2.2 initialDragState rfl).1⟩

/-- C8: a consumer listener that throws is caught at the notification
boundary: its error shows up in the log, its trace entry carries the error
value instead of escaping, and every registered listener is still invoked
with the same event. -/
theorem c8_listener_errors_isolated {α : Type}
    (ls : List (α → Except String Unit)) (ev : α) (i : Nat)
    (cb : α → Except String Unit) (e : String)
    (hi : ls[i]? = some cb) (he : cb ev = Except.error e) :
    (notifyListeners ls ev)[i]? = some (ev, Except.error e) ∧
    e ∈ notifyLog ls ev ∧
    ∀ (j : Nat) (cb' : α → Except String Unit), ls[j]? = some cb' →
      (notifyListeners ls ev)[j]? = some (ev, cb' ev) := by
  have hmap : ∀ (j : Nat) (cb' : α → Except String Unit), ls[j]? = some cb' →
      (notifyListeners ls ev)[j]? = some (ev, cb' ev) := by
    intro j cb' hj
    show (ls.map (fun cb => (ev, cb ev)))[j]? = some (ev, cb' ev)
    rw [List.getElem?_map, hj]
    rfl
  have h1 := hmap i cb hi
  rw [he] at h1
  refine ⟨h1, ?_, hmap⟩
  have hmem : (ev, Except.error e) ∈ notifyListeners ls ev :=
    List.getElem?_mem h1
  rw [notifyLog, List.mem_filterMap]
  exact ⟨(ev, Except.error e), hmem, rfl⟩

/-- Witness for c8_listener_errors_isolated: two listeners, the first one
throws, the second is still notified with the same event. -/
theorem c8_listener_errors_isolated_witness :
    (notifyListeners ([fun _ => Except.error "boom",
        fun _ => Except.ok ()] : List (Nat → Except String Unit)) 7)[0]? =
      some (7, Except.error "boom") ∧
    "boom" ∈ notifyLog ([fun _ => Except.error "boom",
        fun _ => Except.ok ()] : List (Nat → Except String Unit)) 7 ∧
    (notifyListeners ([fun _ => Except.error "boom",
        fun _ => Except.ok ()] : List (Nat → Except String Unit)) 7)[1]? =
      some (7, Except.ok ()) := by
  have h := c8_listener_errors_isolated
    ([fun _ => Except.error "boom", fun _ => Except.ok ()] :
      List (Nat → Except String Unit)) 7 0
    (fun _ => Except.error "boom") "boom" rfl rfl
  exact ⟨h.1, h.2.1, h.2.2 1 (fun _ => Except.ok ()) rfl⟩

/-! Helper lemmas about the chip map of applySavedChipsOrder. -/

/-- Unfolding of the chip-map fold against an arbitrary accumulator. -/
theorem chipMapGet_foldl_acc (xs : List ChipData) (g : String) :
    ∀ acc : Option ChipData,
      xs.foldl (fun acc c => if c.group = g then some c else acc) acc =
        match chipMapGet xs g with
        | some c => some c
        | none => acc := by
  induction xs with
  | nil => intro acc; rfl
  | cons y ys ih =>
    intro acc
    show ys.foldl _ (if y.group = g then some y else acc) = _
    rw [ih]
    have hmap : chipMapGet (y :: ys) g =
        match chipMapGet ys g with
        | some c => some c
        | none => if y.group = g then some y else none := by
      show ys.foldl _ (if y.group = g then some y else none) = _
      rw [ih]
    rw [hmap]
    cases chipMapGet ys g with
    | some c => rfl
    | none => by_cases hy : y.group = g <;> simp [hy]

/-- A hit in the chip map is a chip of the list carrying the looked-up
group. -/
theorem chipMapGet_eq_some {chips : List ChipData} {g : String}
    {c : ChipData} (h : chipMapGet chips g = some c) :
    c ∈ chips ∧ c.group = g := by
  induction chips with
  | nil => exact absurd h (by simp [chipMapGet])
  | cons x xs ih =>
    have hx : chipMapGet (x :: xs) g =
        match chipMapGet xs g with
        | some c => some c
        | none => if x.group = g then some x else none := by
      show xs.foldl _ (if x.group = g then some x else none) = _
      rw [chipMapGet_foldl_acc]
    rw [hx] at h
    cases hmg : chipMapGet xs g with
    | some c' =>
      rw [hmg] at h
      have := ih (hmg.trans h)
      exact ⟨List.mem_cons_of_mem x this.1, this.2⟩
    | none =>
      rw [hmg] at h
      by_cases hg : x.group = g
      · rw [if_pos hg] at h
        obtain rfl := (Option.some.injEq _ _).mp h
        exact ⟨List.mem_cons_self _ _, hg⟩
      · rw [if_neg hg] at h
        exact absurd h (by simp)

/-- The chip map misses exactly when no chip carries the group. -/
theorem chipMapGet_eq_none_iff {chips : List ChipData} {g : String} :
    chipMapGet chips g = none ↔ ∀ c ∈ chips, c.group ≠ g := by
  induction chips with
  | nil => simp [chipMapGet]
  | cons x xs ih =>
    have hx : chipMapGet (x :: xs) g =
        match chipMapGet xs g with
        | some c => some c
        | none => if x.group = g then some x else none := by
      show xs.foldl _ (if x.group = g then some x else none) = _
      rw [chipMapGet_foldl_acc]
    rw [hx]
    cases hmg : chipMapGet xs g with
    | some c' =>
      have hc' := chipMapGet_eq_some hmg
      simp only [List.mem_cons]
      constructor
      · intro h; exact absurd h (by simp)
      · intro h
        exact absurd hc'.2 (h c' (Or.inr hc'.1))
    | none =>
      rw [ih] at hmg
      by_cases hg : x.group = g
      · simp only [if_pos hg, List.mem_cons]
        constructor
        · intro h; exact absurd h (by simp)
        · intro h; exact absurd hg (h x (Or.inl rfl))
      · simp only [if_neg hg, List.mem_cons]
        constructor
        · intro _ c hc
          rcases hc with rfl | hc
          · exact hg
          · exact hmg c hc
        · exact fun _ => trivial

/-- With pairwise-distinct groups, membership determines the chip-map hit. -/
theorem chipMapGet_of_mem {chips : List ChipData} {c : ChipData}
    (hpw : chips.Pairwise (fun a b => a.group ≠ b.group)) (hc : c ∈ chips) :
    chipMapGet chips c.group = some c := by
  induction chips with
  | nil => exact absurd hc (by simp)
  | cons x xs ih =>
    rw [List.pairwise_cons] at hpw
    have hx : chipMapGet (x :: xs) c.group =
        match chipMapGet xs c.group with
        | some c' => some c'
        | none => if x.group = c.group then some x else none := by
      show xs.foldl _ (if x.group = c.group then some x else none) = _
      rw [chipMapGet_foldl_acc]
    rw [hx]
    rcases List.mem_cons.mp hc with rfl | hmem
    · have hnone : chipMapGet xs c.group = none :=
        chipMapGet_eq_none_iff.mpr (fun y hy => (hpw.1 y hy).symm)
      rw [hnone]
      simp
    · rw [ih hpw.2 hmem]


/-- A chip of the list is always found under its own group. -/
theorem chipMapGet_isSome_of_mem {chips : List ChipData} {c : ChipData}
    (hc : c ∈ chips) : (chipMapGet chips c.group).isSome = true := by
  cases h : chipMapGet chips c.group with
  | some c' => rfl
  | none => exact absurd rfl (chipMapGet_eq_none_iff.mp h c hc)

/-- C10 counterexample: with pairwise-distinct chip groups but a duplicated
entry in the saved order, applySavedChipsOrder emits the chip once per
occurrence, so the result is not a permutation of the input. -/
theorem c10_counterexample_duplicate_saved_group :
    ([chipLights].Pairwise (fun a b => a.group ≠ b.group)) ∧
    applySavedChipsOrder (some ["lights", "lights"]) [chipLights] =
      [chipLights, chipLights] ∧
    ¬ List.Perm
      (applySavedChipsOrder (some ["lights", "lights"]) [chipLights])
      [chipLights] := by
  have hmid : applySavedChipsOrder (some ["lights", "lights"]) [chipLights] =
      [chipLights, chipLights] := by rfl
  refine ⟨by simp, hmid, ?_⟩
  intro h
  have hlen := h.length_eq
  rw [hmid] at hlen
  simp at hlen

/-- C10 amended: for a chip list with pairwise-distinct groups and a saved
order with pairwise-distinct entries, applySavedChipsOrder returns a
permutation of its input; without a customization manager or with an empty
saved order the input is returned unchanged; otherwise chips whose group
appears in the saved order come first in saved-order sequence, followed by
the remaining chips in their original relative order. -/
theorem c10_amended_saved_order_perm (chips : List ChipData)
    (savedOrder : List String)
    (hpw : chips.Pairwise (fun a b => a.group ≠ b.group))
    (hnd : savedOrder.Nodup) :
    applySavedChipsOrder none chips = chips ∧
    applySavedChipsOrder (some []) chips = chips ∧
    applySavedChipsOrder (some savedOrder) chips =
      savedOrder.filterMap (fun g => chipMapGet chips g) ++
        chips.filter (fun c => !(savedOrder.contains c.group)) ∧
    List.Perm (applySavedChipsOrder (some savedOrder) chips) chips := by
  have hchipsNodup : chips.Nodup :=
    List.Pairwise.imp
      (fun {a b} hg hab => hg (congrArg ChipData.group hab)) hpw
  have hEq : applySavedChipsOrder (some savedOrder) chips =
      savedOrder.filterMap (fun g => chipMapGet chips g) ++
        chips.filter (fun c => !(savedOrder.contains c.group)) := by
    by_cases hso : savedOrder = []
    · subst hso
      simp [applySavedChipsOrder]
    · have hlen : ¬savedOrder.length = 0 := by simpa using hso
      show (if savedOrder.length = 0 then chips else _) = _
      rw [if_neg hlen]
      congr 1
      apply List.filter_congr
      intro x hx
      have hsomex : (chipMapGet chips x.group).isSome = true :=
        chipMapGet_isSome_of_mem hx
      have hcontains : (savedOrder.filter
          (fun g => (chipMapGet chips g).isSome)).contains x.group =
          savedOrder.contains x.group := by
        apply Bool.coe_iff_coe.mp
        rw [List.elem_iff, List.elem_iff]
        simp [List.mem_filter, hsomex]
      rw [hcontains]
  have hcore : List.Perm
      (savedOrder.filterMap (fun g => chipMapGet chips g))
      (chips.filter (fun c => savedOrder.contains c.group)) := by
    have hnodupL :
        (savedOrder.filterMap (fun g => chipMapGet chips g)).Nodup := by
      refine List.Nodup.filterMap ?_ hnd
      intro a a' b hb hb'
      have h1 := chipMapGet_eq_some (Option.mem_def.mp hb)
      have h2 := chipMapGet_eq_some (Option.mem_def.mp hb')
      rw [← h1.2, ← h2.2]
    have hnodupR := hchipsNodup.filter
      (fun c => savedOrder.contains c.group)
    refine (List.perm_ext_iff_of_nodup hnodupL hnodupR).mpr ?_
    intro c
    rw [List.mem_filterMap, List.mem_filter]
    constructor
    · rintro ⟨g, hg, hmg⟩
      have h := chipMapGet_eq_some hmg
      refine ⟨h.1, ?_⟩
      rw [List.elem_iff, h.2]
      exact hg
    · rintro ⟨hc, hcont⟩
      refine ⟨c.group, ?_, chipMapGet_of_mem hpw hc⟩
      rw [← List.elem_iff]
      exact hcont
  refine ⟨rfl, rfl, hEq, ?_⟩
  rw [hEq]
  exact (hcore.append_right _).trans
    (List.filter_append_perm (fun c => savedOrder.contains c.group) chips)

/-- Witness for c10_amended_saved_order_perm: two chips, the saved order
names the second group, so that chip moves to the front. -/
theorem c10_amended_saved_order_perm_witness :
    List.Perm
      (applySavedChipsOrder (some ["climate"]) [chipLights, chipClimate])
      [chipLights, chipClimate] ∧
    applySavedChipsOrder (some ["climate"]) [chipLights, chipClimate] =
      [chipClimate, chipLights] := by
  have h := c10_amended_saved_order_perm [chipLights, chipClimate]
    ["climate"] (by decide) (by decide)
  refine ⟨h.2.2.2, ?_⟩
  rw [h.2.2.1]
  rfl

/-! Helper lemmas about the edge auto-scroll speed. -/

/-- In the left edge zone with leftward scroll possible, the computed speed
follows the left-branch formula. -/
theorem core_left_eq (z M m L R sl ms x : ℚ) (h0 : 0 ≤ x - L)
    (h1 : x - L < z) (hsl : 0 < sl) :
    updateScrollSpeedCore z M m L R sl ms x =
      -(m + (1 - (x - L) / z) * (M - m)) := by
  simp only [updateScrollSpeedCore]
  rw [if_pos ⟨h1, h0, hsl⟩]

/-- Outside the left branch, in the right edge zone with rightward scroll
possible, the computed speed follows the right-branch formula. -/
theorem core_right_eq (z M m L R sl ms x : ℚ)
    (hnl : ¬(x - L < z ∧ 0 ≤ x - L ∧ 0 < sl)) (h0 : 0 ≤ R - x)
    (h1 : R - x < z) (hsr : sl < ms) :
    updateScrollSpeedCore z M m L R sl ms x =
      m + (1 - (R - x) / z) * (M - m) := by
  simp only [updateScrollSpeedCore]
  rw [if_neg hnl, if_pos ⟨h1, h0, hsr⟩]

/-- Outside both edge zones the computed speed is zero. -/
theorem core_zero_eq (z M m L R sl ms x : ℚ)
    (hl : ¬(0 ≤ x - L ∧ x - L < z)) (hr : ¬(0 ≤ R - x ∧ R - x < z)) :
    updateScrollSpeedCore z M m L R sl ms x = 0 := by
  simp only [updateScrollSpeedCore]
  rw [if_neg (fun hc => hl ⟨hc.2.1, hc.1⟩),
    if_neg (fun hc => hr ⟨hc.2.1, hc.1⟩)]

/-- Bounds of the left branch: magnitude between the speed bounds, strictly
negative. -/
theorem core_left_bounds (z M m L R sl ms x : ℚ) (hz : 0 < z) (hm : 0 < m)
    (hMm : m ≤ M) (h0 : 0 ≤ x - L) (h1 : x - L < z) (hsl : 0 < sl) :
    m ≤ -updateScrollSpeedCore z M m L R sl ms x ∧
      -updateScrollSpeedCore z M m L R sl ms x ≤ M ∧
      updateScrollSpeedCore z M m L R sl ms x < 0 := by
  rw [core_left_eq z M m L R sl ms x h0 h1 hsl]
  have hq0 : 0 ≤ (x - L) / z := div_nonneg h0 hz.le
  have hq1 : (x - L) / z < 1 := (div_lt_one hz).mpr h1
  have h2 : 0 ≤ (1 - (x - L) / z) * (M - m) :=
    mul_nonneg (by linarith) (by linarith)
  have h3 : (1 - (x - L) / z) * (M - m) ≤ M - m :=
    mul_le_of_le_one_left (by linarith) (by linarith)
  exact ⟨by linarith, by linarith, by linarith⟩

/-- Bounds of the right branch: between the speed bounds, strictly
positive. -/
theorem core_right_bounds (z M m L R sl ms x : ℚ) (hz : 0 < z) (hm : 0 < m)
    (hMm : m ≤ M) (hnl : ¬(x - L < z ∧ 0 ≤ x - L ∧ 0 < sl))
    (h0 : 0 ≤ R - x) (h1 : R - x < z) (hsr : sl < ms) :
    m ≤ updateScrollSpeedCore z M m L R sl ms x ∧
      updateScrollSpeedCore z M m L R sl ms x ≤ M ∧
      0 < updateScrollSpeedCore z M m L R sl ms x := by
  rw [core_right_eq z M m L R sl ms x hnl h0 h1 hsr]
  have hq0 : 0 ≤ (R - x) / z := div_nonneg h0 hz.le
  have hq1 : (R - x) / z < 1 := (div_lt_one hz).mpr h1
  have h2 : 0 ≤ (1 - (R - x) / z) * (M - m) :=
    mul_nonneg (by linarith) (by linarith)
  have h3 : (1 - (R - x) / z) * (M - m) ≤ M - m :=
    mul_le_of_le_one_left (by linarith) (by linarith)
  exact ⟨by linarith, by linarith, by linarith⟩

/-- Monotonicity in the left zone: the closer the pointer is to the left
boundary, the more negative the speed. -/
theorem core_left_mono (z M m L R sl ms x1 x2 : ℚ) (hz : 0 < z)
    (hMm : m ≤ M) (h10 : 0 ≤ x1 - L) (h21 : x2 - L < z) (hx : x1 ≤ x2)
    (hsl : 0 < sl) :
    updateScrollSpeedCore z M m L R sl ms x1 ≤
      updateScrollSpeedCore z M m L R sl ms x2 := by
  have h11 : x1 - L < z := by linarith
  have h20 : 0 ≤ x2 - L := by linarith
  rw [core_left_eq z M m L R sl ms x1 h10 h11 hsl,
    core_left_eq z M m L R sl ms x2 h20 h21 hsl]
  have hq : (x1 - L) / z ≤ (x2 - L) / z := by gcongr
  have := mul_le_mul_of_nonneg_right (sub_le_sub_left hq 1)
    (by linarith : (0 : ℚ) ≤ M - m)
  linarith

/-- Monotonicity in the right zone: the closer the pointer is to the right
boundary, the larger the speed. -/
theorem core_right_mono (z M m L R sl ms x1 x2 : ℚ) (hz : 0 < z)
    (hMm : m ≤ M)
    (hnl1 : ¬(x1 - L < z ∧ 0 ≤ x1 - L ∧ 0 < sl))
    (hnl2 : ¬(x2 - L < z ∧ 0 ≤ x2 - L ∧ 0 < sl))
    (h20 : 0 ≤ R - x2) (h11 : R - x1 < z) (hx : x1 ≤ x2) (hsr : sl < ms) :
    updateScrollSpeedCore z M m L R sl ms x1 ≤
      updateScrollSpeedCore z M m L R sl ms x2 := by
  have h10 : 0 ≤ R - x1 := by linarith
  have h21 : R - x2 < z := by linarith
  rw [core_right_eq z M m L R sl ms x1 hnl1 h10 h11 hsr,
    core_right_eq z M m L R sl ms x2 hnl2 h20 h21 hsr]
  have hq : (R - x2) / z ≤ (R - x1) / z := by gcongr
  have := mul_le_mul_of_nonneg_right (sub_le_sub_left hq 1)
    (by linarith : (0 : ℚ) ≤ M - m)
  linarith

/-- The jitter gate keeps zero when the computed speed is zero. -/
theorem maintained_zero (L R sl ms x cur : ℚ)
    (hns : carouselNewSpeed L R sl ms x = 0) :
    carouselMaintainedSpeed cur L R sl ms x = 0 := by
  by_cases hcur : cur = 0 <;>
    simp [carouselMaintainedSpeed, hns, hcur]

/-- The jitter gate keeps the maintained speed strictly negative whenever
the computed speed is at most the negated minimum. -/
theorem maintained_neg (L R sl ms x cur : ℚ)
    (hub : carouselNewSpeed L R sl ms x ≤ -3) :
    carouselMaintainedSpeed cur L R sl ms x < 0 := by
  show (if 1/2 < |carouselNewSpeed L R sl ms x - cur| ∨
      (carouselNewSpeed L R sl ms x = 0 ∧ ¬cur = 0)
    then carouselNewSpeed L R sl ms x else cur) < 0
  split_ifs with h
  · linarith
  · push_neg at h
    have h2 := abs_le.mp h.1
    linarith [h2.1]

/-- The jitter gate keeps the maintained speed strictly positive whenever
the computed speed is at least the minimum. -/
theorem maintained_pos (L R sl ms x cur : ℚ)
    (hlb : 3 ≤ carouselNewSpeed L R sl ms x) :
    0 < carouselMaintainedSpeed cur L R sl ms x := by
  show 0 < (if 1/2 < |carouselNewSpeed L R sl ms x - cur| ∨
      (carouselNewSpeed L R sl ms x = 0 ∧ ¬cur = 0)
    then carouselNewSpeed L R sl ms x else cur)
  split_ifs with h
  · linarith
  · push_neg at h
    have h2 := abs_le.mp h.1
    linarith [h2.2]

/-- The maintained speed never deviates from the computed speed by more
than the gate threshold. -/
theorem maintained_close (L R sl ms x cur : ℚ) :
    |carouselMaintainedSpeed cur L R sl ms x -
      carouselNewSpeed L R sl ms x| ≤ 1/2 := by
  show |(if 1/2 < |carouselNewSpeed L R sl ms x - cur| ∨
      (carouselNewSpeed L R sl ms x = 0 ∧ ¬cur = 0)
    then carouselNewSpeed L R sl ms x else cur) -
      carouselNewSpeed L R sl ms x| ≤ 1/2
  split_ifs with h
  · simp
  · push_neg at h
    rw [abs_sub_comm]
    exact h.1

/-- C5 counterexample: in a scroll container narrower than the edge zone
(width 50, zone 100) whose scroll offset allows both directions, a pointer at
the middle sits inside the right edge zone with rightward scrolling possible,
yet the computed velocity is negative, because the left branch takes
precedence. -/
theorem c5_counterexample_overlapping_zones :
    (0 : ℚ) ≤ 50 - 25 ∧ (50 : ℚ) - 25 < 100 ∧ (5 : ℚ) < 10 ∧
      carouselNewSpeed 0 50 5 10 25 = -12 ∧
      ¬0 < carouselNewSpeed 0 50 5 10 25 := by
  have h : carouselNewSpeed 0 50 5 10 25 = -12 := by
    rw [carouselNewSpeed,
      core_left_eq 100 15 3 0 50 5 10 25 (by norm_num) (by norm_num)
        (by norm_num)]
    norm_num
  refine ⟨by norm_num, by norm_num, by norm_num, h, ?_⟩
  rw [h]
  norm_num

/-- C5 amended: the computed auto-scroll velocity is 0 outside both edge
zones, strictly negative inside the left zone when leftward scrolling is
possible, strictly positive inside the right zone when rightward scrolling is
possible and the left branch does not take precedence, follows the linear
interpolation between minimum speed at the zone edge and maximum speed at the
boundary, and its magnitude grows monotonically as the pointer nears the
boundary; the carousel variant additionally routes the computed value through
a 0.5-wide jitter gate that preserves sign and zero and stays within 0.5 of
the computed value. -/
theorem c5_amended_autoscroll_velocity :
    (∀ L R sl ms x : ℚ, ¬(0 ≤ x - L ∧ x - L < 100) →
        ¬(0 ≤ R - x ∧ R - x < 100) →
        carouselNewSpeed L R sl ms x = 0 ∧
        ∀ cur : ℚ, carouselMaintainedSpeed cur L R sl ms x = 0) ∧
    (∀ L R sl ms x : ℚ, ¬(0 ≤ x - L ∧ x - L < 80) →
        ¬(0 ≤ R - x ∧ R - x < 80) →
        chipsNewSpeed L R sl ms x = 0) ∧
    (∀ L R sl ms x : ℚ, 0 ≤ x - L → x - L < 100 → 0 < sl →
        carouselNewSpeed L R sl ms x = -(3 + (1 - (x - L) / 100) * 12) ∧
        carouselNewSpeed L R sl ms x < 0 ∧
        3 ≤ -carouselNewSpeed L R sl ms x ∧
        -carouselNewSpeed L R sl ms x ≤ 15 ∧
        ∀ cur : ℚ, carouselMaintainedSpeed cur L R sl ms x < 0) ∧
    (∀ L R sl ms x : ℚ, ¬(x - L < 100 ∧ 0 ≤ x - L ∧ 0 < sl) →
        0 ≤ R - x → R - x < 100 → sl < ms →
        carouselNewSpeed L R sl ms x = 3 + (1 - (R - x) / 100) * 12 ∧
        0 < carouselNewSpeed L R sl ms x ∧
        3 ≤ carouselNewSpeed L R sl ms x ∧
        carouselNewSpeed L R sl ms x ≤ 15 ∧
        ∀ cur : ℚ, 0 < carouselMaintainedSpeed cur L R sl ms x) ∧
    (∀ L R sl ms x : ℚ, 0 ≤ x - L → x - L < 80 → 0 < sl →
        chipsNewSpeed L R sl ms x = -(2 + (1 - (x - L) / 80) * 10) ∧
        chipsNewSpeed L R sl ms x < 0 ∧
        2 ≤ -chipsNewSpeed L R sl ms x ∧ -chipsNewSpeed L R sl ms x ≤ 12) ∧
    (∀ L R sl ms x : ℚ, ¬(x - L < 80 ∧ 0 ≤ x - L ∧ 0 < sl) →
        0 ≤ R - x → R - x < 80 → sl < ms →
        chipsNewSpeed L R sl ms x = 2 + (1 - (R - x) / 80) * 10 ∧
        0 < chipsNewSpeed L R sl ms x ∧
        2 ≤ chipsNewSpeed L R sl ms x ∧ chipsNewSpeed L R sl ms x ≤ 12) ∧
    (∀ L R sl ms x1 x2 : ℚ, 0 ≤ x1 - L → x2 - L < 100 → x1 ≤ x2 → 0 < sl →
        carouselNewSpeed L R sl ms x1 ≤ carouselNewSpeed L R sl ms x2) ∧
    (∀ L R sl ms x1 x2 : ℚ, ¬(x1 - L < 100 ∧ 0 ≤ x1 - L ∧ 0 < sl) →
        ¬(x2 - L < 100 ∧ 0 ≤ x2 - L ∧ 0 < sl) →
        0 ≤ R - x2 → R - x1 < 100 → x1 ≤ x2 → sl < ms →
        carouselNewSpeed L R sl ms x1 ≤ carouselNewSpeed L R sl ms x2) ∧
    (∀ L R sl ms x1 x2 : ℚ, 0 ≤ x1 - L → x2 - L < 80 → x1 ≤ x2 → 0 < sl →
        chipsNewSpeed L R sl ms x1 ≤ chipsNewSpeed L R sl ms x2) ∧
    (∀ L R sl ms x1 x2 : ℚ, ¬(x1 - L < 80 ∧ 0 ≤ x1 - L ∧ 0 < sl) →
        ¬(x2 - L < 80 ∧ 0 ≤ x2 - L ∧ 0 < sl) →
        0 ≤ R - x2 → R - x1 < 80 → x1 ≤ x2 → sl < ms →
        chipsNewSpeed L R sl ms x1 ≤ chipsNewSpeed L R sl ms x2) ∧
    (∀ L R sl ms x cur : ℚ,
        |carouselMaintainedSpeed cur L R sl ms x -
          carouselNewSpeed L R sl ms x| ≤ 1/2) := by
  refine ⟨?_, ?_, ?_, ?_, ?_, ?_, ?_, ?_, ?_, ?_, ?_⟩
  · intro L R sl ms x hl hr
    have h : carouselNewSpeed L R sl ms x = 0 :=
      core_zero_eq 100 15 3 L R sl ms x hl hr
    exact ⟨h, fun cur => maintained_zero L R sl ms x cur h⟩
  · intro L R sl ms x hl hr
    exact core_zero_eq 80 12 2 L R sl ms x hl hr
  · intro L R sl ms x h0 h1 hsl
    have hb := core_left_bounds 100 15 3 L R sl ms x (by norm_num)
      (by norm_num) (by norm_num) h0 h1 hsl
    refine ⟨(core_left_eq 100 15 3 L R sl ms x h0 h1 hsl).trans
      (by norm_num), hb.2.2, hb.1,
      hb.2.1, fun cur => maintained_neg L R sl ms x cur (by
        have := hb.1
        show updateScrollSpeedCore 100 15 3 L R sl ms x ≤ -3
        linarith)⟩
  · intro L R sl ms x hnl h0 h1 hsr
    have hb := core_right_bounds 100 15 3 L R sl ms x (by norm_num)
      (by norm_num) (by norm_num) hnl h0 h1 hsr
    exact ⟨(core_right_eq 100 15 3 L R sl ms x hnl h0 h1 hsr).trans
      (by norm_num), hb.2.2, hb.1,
      hb.2.1, fun cur => maintained_pos L R sl ms x cur hb.1⟩
  · intro L R sl ms x h0 h1 hsl
    have hb := core_left_bounds 80 12 2 L R sl ms x (by norm_num)
      (by norm_num) (by norm_num) h0 h1 hsl
    exact ⟨(core_left_eq 80 12 2 L R sl ms x h0 h1 hsl).trans
      (by norm_num), hb.2.2, hb.1, hb.2.1⟩
  · intro L R sl ms x hnl h0 h1 hsr
    have hb := core_right_bounds 80 12 2 L R sl ms x (by norm_num)
      (by norm_num) (by norm_num) hnl h0 h1 hsr
    exact ⟨(core_right_eq 80 12 2 L R sl ms x hnl h0 h1 hsr).trans
      (by norm_num), hb.2.2, hb.1, hb.2.1⟩
  · intro L R sl ms x1 x2 h10 h21 hx hsl
    exact core_left_mono 100 15 3 L R sl ms x1 x2 (by norm_num)
      (by norm_num) h10 h21 hx hsl
  · intro L R sl ms x1 x2 hnl1 hnl2 h20 h11 hx hsr
    exact core_right_mono 100 15 3 L R sl ms x1 x2 (by norm_num)
      (by norm_num) hnl1 hnl2 h20 h11 hx hsr
  · intro L R sl ms x1 x2 h10 h21 hx hsl
    exact core_left_mono 80 12 2 L R sl ms x1 x2 (by norm_num)
      (by norm_num) h10 h21 hx hsl
  · intro L R sl ms x1 x2 hnl1 hnl2 h20 h11 hx hsr
    exact core_right_mono 80 12 2 L R sl ms x1 x2 (by norm_num)
      (by norm_num) hnl1 hnl2 h20 h11 hx hsr
  · intro L R sl ms x cur
    exact maintained_close L R sl ms x cur

/-- Witness for c5_amended_autoscroll_velocity at concrete geometry: a
1000-wide container scrolled to offset 5 of 10, pointer 50 into the left
zone. -/
theorem c5_amended_autoscroll_velocity_witness :
    carouselNewSpeed 0 1000 5 10 50 = -9 ∧
    carouselNewSpeed 0 1000 5 10 50 < 0 ∧
    carouselMaintainedSpeed 0 0 1000 5 10 50 < 0 ∧
    chipsNewSpeed 0 1000 5 10 40 = -7 ∧
    carouselNewSpeed 0 1000 5 10 200 = 0 := by
  have h := c5_amended_autoscroll_velocity
  have hleft := h.2.2.1 0 1000 5 10 50 (by norm_num) (by norm_num)
    (by norm_num)
  have hchip := h.2.2.2.2.1 0 1000 5 10 40 (by norm_num) (by norm_num)
    (by norm_num)
  have hzero := h.1 0 1000 5 10 200 (by norm_num) (by norm_num)
  refine ⟨?_, hleft.2.1, hleft.2.2.2.2 0, ?_, hzero.1⟩
  · rw [hleft.1]; norm_num
  · rw [hchip.1]; norm_num
